import Mathlib

/-!
Verification development for `mediagoblin/db/models.py` (GNU MediaGoblin's
MongoDB data layer): schema declarations, default values, and the accessor
methods of `User`, `MediaEntry` and `MediaComment`.

Modelling conventions:
* MongoDB ObjectIds and datetimes are modelled as `Nat` (both are totally
  ordered; queries only compare them with `$gt` / `$lt` / equality and sort).
* A collection is a `List` of records; `find` with a filter is `List.filter`,
  `find_one` is `List.find?`, `.sort(...)` is `List.mergeSort`, `.limit(1)`
  is taking the head.
* mongokit's `Document` machinery (the `structure` / `required_fields` /
  `default_values` class attributes are declared in the source, but the
  validation engine that interprets them lives in the external mongokit
  library) is modelled from the spec: a document is an association list of
  field name to value, defaults are filled in for absent fields at creation,
  and validation rejects unknown fields, type mismatches and missing
  required fields.
* External collaborators that are not part of this repository
  (`auth_lib.bcrypt_check_password`, `util.slugify`, the URL generator
  `urlgen`, and the constant `util.DISPLAY_IMAGE_FETCHING_ORDER`) are taken
  as parameters.
-/

/-- A mongokit field value. Only the type tag matters for schema
validation; open `dict`-valued fields carry string pairs. -/
inductive Value where
  | vStr (s : String)
  | vDatetime (t : Nat)
  | vBool (b : Bool)
  | vObjectId (n : Nat)
  | vDict (pairs : List (String × String))
  | vListStr (l : List String)
  | vList (l : List (List String))
deriving Repr, DecidableEq

/-- The semantic type of a schema field, mirroring the Python type
expressions used in the `structure` dicts of `models.py`. -/
inductive FieldType where
  | tUnicode
  | tDatetime
  | tBool
  | tObjectId
  | tDict
  | tListUnicode
  | tList
deriving Repr, DecidableEq

/-- Does a value fit a declared field type? -/
def typeMatches : FieldType → Value → Bool
  | .tUnicode, .vStr _ => true
  | .tDatetime, .vDatetime _ => true
  | .tBool, .vBool _ => true
  | .tObjectId, .vObjectId _ => true
  | .tDict, .vDict _ => true
  | .tListUnicode, .vListStr _ => true
  | .tList, .vList _ => true
  | _, _ => false

/-- A document: an association list from field name to value. -/
abbrev Document := List (String × Value)

/-- Look a field up in a document (first binding wins). -/
def lookupField : Document → String → Option Value
  | [], _ => none
  | (k, v) :: rest, f => if k = f then some v else lookupField rest f

/-- Modelled from the spec (mongokit default handling, `models.py` only
declares the `default_values` dicts): at creation time every defaulted
field that the caller did not supply is filled in from its provider. -/
def applyDefaults (defaults supplied : Document) : Document :=
  supplied ++ defaults.filter (fun kv => (lookupField supplied kv.1).isNone)

/-- Is a single supplied field known to the schema and well-typed? -/
def fieldOk (schema : List (String × FieldType)) (kv : String × Value) : Bool :=
  match lookupField' schema kv.1 with
  | some t => typeMatches t kv.2
  | none => false
where
  /-- association-list lookup for the schema -/
  lookupField' : List (String × FieldType) → String → Option FieldType
    | [], _ => none
    | (k, v) :: rest, f => if k = f then some v else lookupField' rest f

/-- Modelled from the spec (mongokit validation): every field of the
document must be known and well-typed, and every required field present. -/
def validateDoc (schema : List (String × FieldType)) (required : List String)
    (doc : Document) : Bool :=
  doc.all (fieldOk schema) && required.all (fun f => (lookupField doc f).isSome)

/-- Modelled from the spec (mongokit record creation): fill in defaults,
then validate; `none` is the ValidationError-equivalent. -/
def createRecord (schema : List (String × FieldType)) (required : List String)
    (defaults supplied : Document) : Option Document :=
  let doc := applyDefaults defaults supplied
  if validateDoc schema required doc then some doc else none

namespace User

/-- `User.structure` from `models.py` (renamed: `structure` is a Lean
keyword). -/
def fieldSchema : List (String × FieldType) :=
  [("username", .tUnicode),
   ("email", .tUnicode),
   ("created", .tDatetime),
   ("plugin_data", .tDict),
   ("pw_hash", .tUnicode),
   ("email_verified", .tBool),
   ("status", .tUnicode),
   ("verification_key", .tUnicode),
   ("is_admin", .tBool),
   ("url", .tUnicode),
   ("bio", .tUnicode),
   ("bio_html", .tUnicode)]

/-- `User.required_fields` from `models.py`. -/
def required_fields : List String := ["username", "created", "pw_hash", "email"]

/-- `User.default_values` from `models.py`; the two zero-argument
providers (`datetime.datetime.utcnow` and the fresh uuid4 token) are the
explicit parameters `now` and `token`. -/
def default_values (now : Nat) (token : String) : Document :=
  [("created", .vDatetime now),
   ("email_verified", .vBool false),
   ("status", .vStr "needs_email_verification"),
   ("verification_key", .vStr token),
   ("is_admin", .vBool false)]

/-- Creating a `User` record with mongokit. -/
def create (now : Nat) (token : String) (supplied : Document) : Option Document :=
  createRecord fieldSchema required_fields (default_values now token) supplied

end User

namespace MediaEntry

/-- `MediaEntry.structure` from `models.py`. -/
def fieldSchema : List (String × FieldType) :=
  [("uploader", .tObjectId),
   ("title", .tUnicode),
   ("slug", .tUnicode),
   ("created", .tDatetime),
   ("description", .tUnicode),
   ("description_html", .tUnicode),
   ("media_type", .tUnicode),
   ("media_data", .tDict),
   ("plugin_data", .tDict),
   ("tags", .tListUnicode),
   ("state", .tUnicode),
   ("queued_media_file", .tListUnicode),
   ("media_files", .tDict),
   ("attachment_files", .tList),
   ("thumbnail_file", .tListUnicode)]

/-- `MediaEntry.required_fields` from `models.py`. -/
def required_fields : List String := ["uploader", "created", "media_type", "slug"]

/-- `MediaEntry.default_values` from `models.py`. -/
def default_values (now : Nat) : Document :=
  [("created", .vDatetime now),
   ("state", .vStr "unprocessed")]

/-- Creating a `MediaEntry` record with mongokit. -/
def create (now : Nat) (supplied : Document) : Option Document :=
  createRecord fieldSchema required_fields (default_values now) supplied

end MediaEntry

namespace MediaComment

/-- `MediaComment.structure` from `models.py`. -/
def fieldSchema : List (String × FieldType) :=
  [("media_entry", .tObjectId),
   ("author", .tObjectId),
   ("created", .tDatetime),
   ("content", .tUnicode),
   ("content_html", .tUnicode)]

/-- `MediaComment.required_fields` from `models.py`. -/
def required_fields : List String := ["media_entry", "author", "created", "content"]

/-- `MediaComment.default_values` from `models.py`. -/
def default_values (now : Nat) : Document :=
  [("created", .vDatetime now)]

end MediaComment

/-- An in-memory `User` record, with the fields of `User.structure`
(`plugin_data` is the open mapping for plugins). -/
structure UserRec where
  id : Nat
  username : String
  email : String
  created : Nat
  plugin_data : List (String × String)
  pw_hash : String
  email_verified : Bool
  status : String
  verification_key : String
  is_admin : Bool
  url : String
  bio : String
  bio_html : String
deriving Repr, DecidableEq

/-- An in-memory `MediaEntry` record, with the fields of
`MediaEntry.structure`. -/
structure MediaEntryRec where
  id : Nat
  uploader : Nat
  title : String
  slug : String
  created : Nat
  description : String
  description_html : String
  media_type : String
  media_data : List (String × String)
  plugin_data : List (String × String)
  tags : List String
  state : String
  queued_media_file : List String
  media_files : List (String × List String)
  attachment_files : List (List String)
  thumbnail_file : List String
deriving Repr, DecidableEq

/-- An in-memory `MediaComment` record, with the fields of
`MediaComment.structure`. -/
structure MediaCommentRec where
  id : Nat
  media_entry : Nat
  author : Nat
  created : Nat
  content : String
  content_html : String
deriving Repr, DecidableEq

namespace MediaEntry

/-- `MediaEntry.get_comments` from `models.py`:
`find({'media_entry': self['_id']}).sort('created', DESCENDING)`.
`comments` is the `media_comments` collection. -/
def get_comments (comments : List MediaCommentRec) (e : MediaEntryRec) :
    List MediaCommentRec :=
  (comments.filter (fun c => c.media_entry == e.id)).mergeSort
    (fun a b => b.created ≤ a.created)

/-- `MediaEntry.get_display_media` from `models.py`. The loop walks
`DISPLAY_IMAGE_FETCHING_ORDER` (a constant imported from
`mediagoblin.util`, passed here as the parameter `display_order`), not the
`fetch_order` argument, and returns `media_map[media_size]` — the path
sequence alone. `fetch_order` is accepted and ignored, as in the source. -/
def get_display_media (display_order : List String)
    (media_map : List (String × List String)) (fetch_order : List String) :
    Option (List String) :=
  let _ := fetch_order
  match display_order.find? (fun media_size =>
      (media_map.lookup media_size).isSome) with
  | some media_size => media_map.lookup media_size
  | none => none

/-- `MediaEntry.generate_slug` from `models.py`: set
`self['slug'] = slugify(self['title'])`, then `find_one` for any entry
with that slug in the `media_entries` collection (`store`); on a hit,
rewrite the slug to `"<id>-<slug>"`. The store itself is not written;
only the in-memory record is returned, updated. -/
def generate_slug (slugify : String → String) (store : List MediaEntryRec)
    (e : MediaEntryRec) : MediaEntryRec :=
  let e1 := { e with slug := slugify e.title }
  match store.find? (fun m => m.slug == e1.slug) with
  | some _ => { e1 with slug := toString e1.id ++ "-" ++ e1.slug }
  | none => e1

/-- `generate_slug` viewed as a transformer of the state pair
(record, `media_entries` collection): the method's only database call is
the `find_one` read, and it never saves, so the collection component
passes through unchanged while the in-memory record is updated. -/
def generate_slug_db (slugify : String → String)
    (st : MediaEntryRec × List MediaEntryRec) :
    MediaEntryRec × List MediaEntryRec :=
  (generate_slug slugify st.2 st.1, st.2)

/-- `MediaEntry.uploader` from `models.py`:
`User.find_one({'_id': self['uploader']})`. -/
def uploader (users : List UserRec) (e : MediaEntryRec) : Option UserRec :=
  users.find? (fun u => u.id == e.uploader)

/-- The `find` filter of `url_to_prev`: `_id > self._id`, same uploader,
state `processed`. -/
def prevCandidates (store : List MediaEntryRec) (e : MediaEntryRec) :
    List MediaEntryRec :=
  store.filter (fun m =>
    e.id < m.id && m.uploader == e.uploader && m.state == "processed")

/-- The `find` filter of `url_to_next`: `_id < self._id`, same uploader,
state `processed`. -/
def nextCandidates (store : List MediaEntryRec) (e : MediaEntryRec) :
    List MediaEntryRec :=
  store.filter (fun m =>
    m.id < e.id && m.uploader == e.uploader && m.state == "processed")

/-- `MediaEntry.url_to_prev` from `models.py`: find entries with
`_id > self._id`, same uploader, state `processed`, sorted ascending by
`_id`, limited to one; if any, generate a URL from the uploader's
username and that entry's slug. `Except.error` models the uncaught
Python `TypeError` when the uploader reference dangles. -/
def url_to_prev (urlgen : String → String → String)
    (store : List MediaEntryRec) (users : List UserRec) (e : MediaEntryRec) :
    Except String (Option String) :=
  let cursor := ((prevCandidates store e).mergeSort (fun a b => a.id ≤ b.id)).take 1
  match cursor with
  | [] => .ok none
  | m :: _ =>
    match uploader users e with
    | none => .error "TypeError: 'NoneType' object is not subscriptable"
    | some u => .ok (some (urlgen u.username m.slug))

/-- `MediaEntry.url_to_next` from `models.py`: same as `url_to_prev` but
with `_id < self._id`, sorted descending. -/
def url_to_next (urlgen : String → String → String)
    (store : List MediaEntryRec) (users : List UserRec) (e : MediaEntryRec) :
    Except String (Option String) :=
  let cursor := ((nextCandidates store e).mergeSort (fun a b => b.id ≤ a.id)).take 1
  match cursor with
  | [] => .ok none
  | m :: _ =>
    match uploader users e with
    | none => .error "TypeError: 'NoneType' object is not subscriptable"
    | some u => .ok (some (urlgen u.username m.slug))

end MediaEntry

namespace User

/-- `User.check_login` from `models.py`:
`auth_lib.bcrypt_check_password(password, self['pw_hash'])`. The bcrypt
matcher is external to this repository (modelled from the spec: the
password hashing service exposes hash-and-compare(password, stored_hash)
→ bool) and is the parameter `bcrypt_check_password`. -/
def check_login (bcrypt_check_password : String → String → Bool)
    (u : UserRec) (password : String) : Bool :=
  bcrypt_check_password password u.pw_hash

end User

namespace MediaComment

/-- `MediaComment.media_entry` from `models.py`:
`MediaEntry.find_one({'_id': self['media_entry']})`. -/
def media_entry (entries : List MediaEntryRec) (c : MediaCommentRec) :
    Option MediaEntryRec :=
  entries.find? (fun m => m.id == c.media_entry)

/-- `MediaComment.author` from `models.py`:
`User.find_one({'_id': self['author']})`. -/
def author (users : List UserRec) (c : MediaCommentRec) : Option UserRec :=
  users.find? (fun u => u.id == c.author)

end MediaComment

/-- A concrete processed media entry used for concrete evaluations. -/
def sampleEntry : MediaEntryRec :=
  { id := 7, uploader := 1, title := "hello", slug := "hello", created := 5,
    description := "", description_html := "",
    media_type := "mediagoblin.media_types.image",
    media_data := [], plugin_data := [], tags := [], state := "processed",
    queued_media_file := [], media_files := [], attachment_files := [],
    thumbnail_file := [] }

/-- A concrete user used for concrete evaluations. -/
def sampleUser : UserRec :=
  { id := 1, username := "alice", email := "alice@example.com", created := 0,
    plugin_data := [], pw_hash := "hash", email_verified := true,
    status := "active", verification_key := "key", is_admin := false,
    url := "", bio := "", bio_html := "" }

/-- A small family of processed entries (ids 1, 2, 3) by `sampleUser`,
with slugs `s1`, `s2`, `s3`, for exercising prev/next navigation. -/
def navEntry (i : Nat) : MediaEntryRec :=
  { sampleEntry with id := i, slug := "s" ++ toString i, title := "t" ++ toString i }

/-! ## Helper lemmas -/

theorem lookupField_append (a b : Document) (f : String) :
    lookupField (a ++ b) f =
      match lookupField a f with
      | some v => some v
      | none => lookupField b f := by
  induction a with
  | nil => rfl
  | cons kv rest ih =>
    obtain ⟨k, v⟩ := kv
    by_cases hk : k = f <;> simp [lookupField, hk, ih]

theorem lookupField_filter_of_none (defaults supplied : Document) (f : String)
    (h : lookupField supplied f = none) :
    lookupField
        (defaults.filter (fun kv => (lookupField supplied kv.1).isNone)) f =
      lookupField defaults f := by
  induction defaults with
  | nil => rfl
  | cons kv rest ih =>
    obtain ⟨k, v⟩ := kv
    by_cases hk : k = f
    · subst hk
      simp [List.filter_cons, h, lookupField]
    · cases hp : (lookupField supplied k).isNone <;>
        simp [List.filter_cons, hp, lookupField, hk, ih]

theorem lookupField_applyDefaults_eq_none (defaults supplied : Document)
    (f : String) :
    lookupField (applyDefaults defaults supplied) f = none ↔
      lookupField supplied f = none ∧ lookupField defaults f = none := by
  unfold applyDefaults
  rw [lookupField_append]
  cases h : lookupField supplied f with
  | some v => simp
  | none => simp [lookupField_filter_of_none defaults supplied f h]

theorem mergeSort_head_of_min {α : Type} {le : α → α → Bool}
    (l : List α) (m : α)
    (htrans : ∀ a b c, le a b → le b c → le a c)
    (htotal : ∀ a b, le a b || le b a)
    (hanti : ∀ a ∈ l, ∀ b ∈ l, le a b = true → le b a = true → a = b)
    (hm : m ∈ l) (hmin : ∀ y ∈ l, le m y = true) :
    ∃ t, l.mergeSort le = m :: t := by
  have hsorted := List.sorted_mergeSort htrans htotal l
  cases hs : l.mergeSort le with
  | nil =>
    exfalso
    have : m ∈ l.mergeSort le := List.mem_mergeSort.mpr hm
    rw [hs] at this
    exact (List.not_mem_nil m) this
  | cons a t =>
    refine ⟨t, ?_⟩
    have ha : a ∈ l := by
      have : a ∈ l.mergeSort le := by rw [hs]; exact List.mem_cons_self a t
      exact List.mem_mergeSort.mp this
    have hma : le m a = true := hmin a ha
    have hm' : m ∈ a :: t := by
      rw [← hs]
      exact List.mem_mergeSort.mpr hm
    rcases List.mem_cons.mp hm' with h | h
    · rw [h]
    · have ham : le a m = true := by
        rw [hs] at hsorted
        exact (List.pairwise_cons.mp hsorted).1 m h
      rw [hanti m hm a ha hma ham]

theorem eq_of_id_eq {l : List MediaEntryRec}
    (hids : l.Pairwise (fun a b => a.id ≠ b.id))
    {a b : MediaEntryRec} (ha : a ∈ l) (hb : b ∈ l) (h : a.id = b.id) :
    a = b := by
  by_contra hne
  exact hids.forall (fun x y hxy => Ne.symm hxy) ha hb hne h

/-! ## Claim theorems -/

/-- C10: for every `display_order` value of the module constant
`DISPLAY_IMAGE_FETCHING_ORDER`, every `media_map` and every two
`fetch_order` arguments `o1` and `o2`, `get_display_media` returns the
same result: the result depends only on `media_map` and the module
constant, never on the `fetch_order` parameter. -/
theorem get_display_media_ignores_fetch_order
    (display_order : List String) (media_map : List (String × List String))
    (o1 o2 : List String) :
    MediaEntry.get_display_media display_order media_map o1 =
      MediaEntry.get_display_media display_order media_map o2 := rfl

/-- C1 (code-bug evaluation): with the module constant holding
`["medium", "original", "thumb"]`, a `media_map` whose only key is
`"medium"`, and a `fetch_order` of `["small"]`, no label of `fetch_order`
is a key of `media_map`, so by the claim (and the method's own docstring)
the call should return nothing — but the code walks the module constant
instead of `fetch_order` and returns `media_map["medium"]`, the bare path
sequence rather than a (size, path) pair. -/
theorem get_display_media_failing_input_eval :
    MediaEntry.get_display_media ["medium", "original", "thumb"]
        [("medium", ["dir1", "dir2", "image.jpg"])] ["small"] =
      some ["dir1", "dir2", "image.jpg"] := by decide

/-- C8: `check_login` returns true iff the candidate password matches the
hash stored in `pw_hash` under the (externally supplied) bcrypt matcher;
it is a total pure function, so it cannot throw or modify the user or the
store. -/
theorem check_login_spec (bcheck : String → String → Bool)
    (u : UserRec) (p : String) :
    User.check_login bcheck u p = true ↔ bcheck p u.pw_hash = true :=
  Iff.rfl

/-- C9: `media_entry()` and `author()` resolve the stored id by lookup and
return `none` — not an error — exactly when no record with that id exists;
when they do return a record, it is a stored record with the referenced
id. -/
theorem comment_reference_resolution (entries : List MediaEntryRec)
    (users : List UserRec) (c : MediaCommentRec) :
    (MediaComment.media_entry entries c = none ↔
      ∀ m ∈ entries, m.id ≠ c.media_entry) ∧
    (MediaComment.author users c = none ↔ ∀ u ∈ users, u.id ≠ c.author) ∧
    (∀ m, MediaComment.media_entry entries c = some m →
      m ∈ entries ∧ m.id = c.media_entry) ∧
    (∀ u, MediaComment.author users c = some u →
      u ∈ users ∧ u.id = c.author) := by
  refine ⟨?_, ?_, ?_, ?_⟩
  · rw [MediaComment.media_entry, List.find?_eq_none]
    simp
  · rw [MediaComment.author, List.find?_eq_none]
    simp
  · intro m hm
    exact ⟨List.mem_of_find?_eq_some hm,
      by simpa using List.find?_some hm⟩
  · intro u hu
    exact ⟨List.mem_of_find?_eq_some hu,
      by simpa using List.find?_some hu⟩

/-- C4: `generate_slug`, as a transformer of the (record, collection)
state, leaves the collection untouched (its only database call is a read)
and changes no field of the record other than `slug`. -/
theorem generate_slug_frame (slugify : String → String)
    (store : List MediaEntryRec) (e : MediaEntryRec) :
    (MediaEntry.generate_slug_db slugify (e, store)).2 = store ∧
    ((MediaEntry.generate_slug_db slugify (e, store)).1.id = e.id ∧
     (MediaEntry.generate_slug_db slugify (e, store)).1.uploader = e.uploader ∧
     (MediaEntry.generate_slug_db slugify (e, store)).1.title = e.title ∧
     (MediaEntry.generate_slug_db slugify (e, store)).1.created = e.created ∧
     (MediaEntry.generate_slug_db slugify (e, store)).1.description = e.description ∧
     (MediaEntry.generate_slug_db slugify (e, store)).1.description_html = e.description_html ∧
     (MediaEntry.generate_slug_db slugify (e, store)).1.media_type = e.media_type ∧
     (MediaEntry.generate_slug_db slugify (e, store)).1.media_data = e.media_data ∧
     (MediaEntry.generate_slug_db slugify (e, store)).1.plugin_data = e.plugin_data ∧
     (MediaEntry.generate_slug_db slugify (e, store)).1.tags = e.tags ∧
     (MediaEntry.generate_slug_db slugify (e, store)).1.state = e.state ∧
     (MediaEntry.generate_slug_db slugify (e, store)).1.queued_media_file = e.queued_media_file ∧
     (MediaEntry.generate_slug_db slugify (e, store)).1.media_files = e.media_files ∧
     (MediaEntry.generate_slug_db slugify (e, store)).1.attachment_files = e.attachment_files ∧
     (MediaEntry.generate_slug_db slugify (e, store)).1.thumbnail_file = e.thumbnail_file) := by
  cases hf : store.find? (fun m => m.slug == slugify e.title) <;>
    simp [MediaEntry.generate_slug_db, MediaEntry.generate_slug, hf]

/-- C3 (counterexample): take the store holding exactly `sampleEntry`
(which is already persisted) and regenerate `sampleEntry`'s slug with the
identity slugifier. No entry *other than* `sampleEntry` carries the slug
`"hello"`, so the claim says the slug stays `slugify(title) = "hello"`;
the code's duplicate check does not exclude the entry itself, finds the
entry, and rewrites the slug to `"7-hello"`. -/
theorem generate_slug_counterexample :
    (∀ m ∈ [sampleEntry], m ≠ sampleEntry →
      m.slug ≠ (fun t => t) sampleEntry.title) ∧
    (MediaEntry.generate_slug (fun t => t) [sampleEntry] sampleEntry).slug ≠
      (fun t => t) sampleEntry.title := by
  constructor
  · intro m hm hne
    simp at hm
    exact absurd hm hne
  · decide

/-- C3 (amended): `generate_slug` sets the slug to `slugify(title)` and
then, if *any* stored entry (the check does not exclude the entry itself)
already carries that slug, rewrites it to `"<id>-<slug>"`; otherwise the
slug stays `slugify(title)`. -/
theorem generate_slug_spec (slugify : String → String)
    (store : List MediaEntryRec) (e : MediaEntryRec) :
    (MediaEntry.generate_slug slugify store e).slug =
      if store.any (fun m => m.slug == slugify e.title)
      then toString e.id ++ "-" ++ slugify e.title
      else slugify e.title := by
  cases hf : store.find? (fun m => m.slug == slugify e.title) with
  | none =>
    have hany : store.any (fun m => m.slug == slugify e.title) = false := by
      rw [List.any_eq_false]
      exact List.find?_eq_none.mp hf
    simp [MediaEntry.generate_slug, hf, hany]
  | some m =>
    have hany : store.any (fun m => m.slug == slugify e.title) = true := by
      rw [List.any_eq_true]
      exact ⟨m, List.mem_of_find?_eq_some hf, by simpa using List.find?_some hf⟩
    simp [MediaEntry.generate_slug, hf, hany]

theorem mem_prevCandidates {store : List MediaEntryRec} {e m : MediaEntryRec} :
    m ∈ MediaEntry.prevCandidates store e ↔
      m ∈ store ∧ e.id < m.id ∧ m.uploader = e.uploader ∧
        m.state = "processed" := by
  simp [MediaEntry.prevCandidates, List.mem_filter, and_assoc]

theorem mem_nextCandidates {store : List MediaEntryRec} {e m : MediaEntryRec} :
    m ∈ MediaEntry.nextCandidates store e ↔
      m ∈ store ∧ m.id < e.id ∧ m.uploader = e.uploader ∧
        m.state = "processed" := by
  simp [MediaEntry.nextCandidates, List.mem_filter, and_assoc]

/-- C5: `get_comments` returns exactly the stored comments whose
`media_entry` reference equals the entry's id — a permutation of that
filter — ordered newest first (each comment's `created` is ≥ every later
one's). -/
theorem get_comments_spec (comments : List MediaCommentRec)
    (e : MediaEntryRec) :
    (MediaEntry.get_comments comments e).Perm
      (comments.filter (fun c => c.media_entry == e.id)) ∧
    (MediaEntry.get_comments comments e).Pairwise
      (fun a b => b.created ≤ a.created) := by
  constructor
  · exact List.mergeSort_perm _ _
  · have h := @List.sorted_mergeSort MediaCommentRec
      (fun a b => decide (b.created ≤ a.created))
      (fun a b c hab hbc => by
        simp only [decide_eq_true_eq] at *
        omega)
      (fun a b => by
        simp only [Bool.or_eq_true, decide_eq_true_eq]
        omega)
      (comments.filter (fun c => c.media_entry == e.id))
    exact h.imp (fun hab => of_decide_eq_true hab)

/-- C2: among stored entries of the same uploader with state
`"processed"`, `url_to_prev` resolves via the entry with the smallest id
strictly greater than this entry's id (ascending sort, limit one), and
`url_to_next` via the entry with the largest id strictly smaller
(descending sort, limit one); each yields nothing when no such entry
exists. -/
theorem url_to_prev_next_spec (urlgen : String → String → String)
    (store : List MediaEntryRec) (users : List UserRec)
    (e : MediaEntryRec) (u : UserRec)
    (hids : store.Pairwise (fun a b => a.id ≠ b.id))
    (hu : MediaEntry.uploader users e = some u) :
    (∀ m ∈ store, m.uploader = e.uploader → m.state = "processed" →
      e.id < m.id →
      (∀ m' ∈ store, m'.uploader = e.uploader → m'.state = "processed" →
        e.id < m'.id → m.id ≤ m'.id) →
      MediaEntry.url_to_prev urlgen store users e =
        .ok (some (urlgen u.username m.slug))) ∧
    ((∀ m ∈ store, m.uploader = e.uploader → m.state = "processed" →
        ¬ e.id < m.id) →
      MediaEntry.url_to_prev urlgen store users e = .ok none) ∧
    (∀ m ∈ store, m.uploader = e.uploader → m.state = "processed" →
      m.id < e.id →
      (∀ m' ∈ store, m'.uploader = e.uploader → m'.state = "processed" →
        m'.id < e.id → m'.id ≤ m.id) →
      MediaEntry.url_to_next urlgen store users e =
        .ok (some (urlgen u.username m.slug))) ∧
    ((∀ m ∈ store, m.uploader = e.uploader → m.state = "processed" →
        ¬ m.id < e.id) →
      MediaEntry.url_to_next urlgen store users e = .ok none) := by
  refine ⟨?_, ?_, ?_, ?_⟩
  · intro m hm hup hst hlt hmin
    obtain ⟨t, hsort⟩ := @mergeSort_head_of_min MediaEntryRec
      (fun a b => decide (a.id ≤ b.id))
      (MediaEntry.prevCandidates store e) m
      (fun a b c hab hbc => by
        simp only [decide_eq_true_eq] at *
        omega)
      (fun a b => by
        simp only [Bool.or_eq_true, decide_eq_true_eq]
        omega)
      (fun a ha b hb hab hba => by
        simp only [decide_eq_true_eq] at hab hba
        exact eq_of_id_eq hids (mem_prevCandidates.mp ha).1
          (mem_prevCandidates.mp hb).1 (Nat.le_antisymm hab hba))
      (mem_prevCandidates.mpr ⟨hm, hlt, hup, hst⟩)
      (fun y hy => by
        obtain ⟨hy1, hy2, hy3, hy4⟩ := mem_prevCandidates.mp hy
        simp only [decide_eq_true_eq]
        exact hmin y hy1 hy3 hy4 hy2)
    unfold MediaEntry.url_to_prev
    rw [hsort]
    simp [hu]
  · intro hnone
    have hnil : MediaEntry.prevCandidates store e = [] := by
      rw [MediaEntry.prevCandidates, List.filter_eq_nil_iff]
      intro m hm h
      simp only [Bool.and_eq_true, decide_eq_true_eq, beq_iff_eq] at h
      exact hnone m hm h.1.2 h.2 h.1.1
    unfold MediaEntry.url_to_prev
    rw [hnil]
    simp
  · intro m hm hup hst hlt hmin
    obtain ⟨t, hsort⟩ := @mergeSort_head_of_min MediaEntryRec
      (fun a b => decide (b.id ≤ a.id))
      (MediaEntry.nextCandidates store e) m
      (fun a b c hab hbc => by
        simp only [decide_eq_true_eq] at *
        omega)
      (fun a b => by
        simp only [Bool.or_eq_true, decide_eq_true_eq]
        omega)
      (fun a ha b hb hab hba => by
        simp only [decide_eq_true_eq] at hab hba
        exact eq_of_id_eq hids (mem_nextCandidates.mp ha).1
          (mem_nextCandidates.mp hb).1 (Nat.le_antisymm hba hab))
      (mem_nextCandidates.mpr ⟨hm, hlt, hup, hst⟩)
      (fun y hy => by
        obtain ⟨hy1, hy2, hy3, hy4⟩ := mem_nextCandidates.mp hy
        simp only [decide_eq_true_eq]
        exact hmin y hy1 hy3 hy4 hy2)
    unfold MediaEntry.url_to_next
    rw [hsort]
    simp [hu]
  · intro hnone
    have hnil : MediaEntry.nextCandidates store e = [] := by
      rw [MediaEntry.nextCandidates, List.filter_eq_nil_iff]
      intro m hm h
      simp only [Bool.and_eq_true, decide_eq_true_eq, beq_iff_eq] at h
      exact hnone m hm h.1.2 h.2 h.1.1
    unfold MediaEntry.url_to_next
    rw [hnil]
    simp

/-- C2 witness: for processed entries with ids 1, 2, 3 of the same
uploader, navigation from entry 2 resolves "prev" via entry 3 (smallest
id above 2) and "next" via entry 1 (largest id below 2). -/
theorem url_to_prev_next_spec_witness :
    MediaEntry.url_to_prev (fun a b => a ++ "/" ++ b)
        [navEntry 1, navEntry 2, navEntry 3] [sampleUser] (navEntry 2) =
      .ok (some "alice/s3") ∧
    MediaEntry.url_to_next (fun a b => a ++ "/" ++ b)
        [navEntry 1, navEntry 2, navEntry 3] [sampleUser] (navEntry 2) =
      .ok (some "alice/s1") := by
  have h := url_to_prev_next_spec (fun a b => a ++ "/" ++ b)
    [navEntry 1, navEntry 2, navEntry 3] [sampleUser] (navEntry 2) sampleUser
    (by decide) (by decide)
  constructor
  · rw [h.1 (navEntry 3) (by decide) (by decide) (by decide) (by decide)
      (by decide)]
    rfl
  · rw [h.2.2.1 (navEntry 1) (by decide) (by decide) (by decide) (by decide)
      (by decide)]
    rfl

theorem user_defaults_fieldOk (now : Nat) (token : String) :
    ∀ kv ∈ User.default_values now token,
      fieldOk User.fieldSchema kv = true := by
  intro kv hkv
  simp only [User.default_values, List.mem_cons, List.not_mem_nil,
    or_false] at hkv
  rcases hkv with h | h | h | h | h <;> subst h <;> rfl

theorem lookupField_applyDefaults_of_supplied_none (defaults supplied : Document)
    (f : String) (h : lookupField supplied f = none) :
    lookupField (applyDefaults defaults supplied) f = lookupField defaults f := by
  rw [applyDefaults, lookupField_append, h]
  exact lookupField_filter_of_none defaults supplied f h

/-- C7: for every field set of well-typed schema fields that supplies the
`User` required fields without a default (`username`, `pw_hash`, `email`;
`created` is required but has a default provider, so it may be supplied or
not), creation succeeds, and every defaulted field the set does not
specify takes its declared default: `status`, `email_verified`,
`is_admin`, the creation-time timestamp `created` and the fresh token
`verification_key`. -/
theorem user_creation_defaults (now : Nat) (token : String)
    (supplied : Document)
    (hok : ∀ kv ∈ supplied, fieldOk User.fieldSchema kv = true)
    (husername : (lookupField supplied "username").isSome = true)
    (hpw : (lookupField supplied "pw_hash").isSome = true)
    (hemail : (lookupField supplied "email").isSome = true) :
    ∃ doc, User.create now token supplied = some doc ∧
      (lookupField supplied "status" = none →
        lookupField doc "status" = some (.vStr "needs_email_verification")) ∧
      (lookupField supplied "email_verified" = none →
        lookupField doc "email_verified" = some (.vBool false)) ∧
      (lookupField supplied "is_admin" = none →
        lookupField doc "is_admin" = some (.vBool false)) ∧
      (lookupField supplied "created" = none →
        lookupField doc "created" = some (.vDatetime now)) ∧
      (lookupField supplied "verification_key" = none →
        lookupField doc "verification_key" = some (.vStr token)) := by
  have hdocSome : ∀ f : String,
      (lookupField supplied f ≠ none ∨
        lookupField (User.default_values now token) f ≠ none) →
      (lookupField (applyDefaults (User.default_values now token) supplied)
        f).isSome = true := by
    intro f hf
    rw [Option.isSome_iff_ne_none]
    intro hn
    rw [lookupField_applyDefaults_eq_none] at hn
    rcases hf with h | h
    · exact h hn.1
    · exact h hn.2
  have hvalid : validateDoc User.fieldSchema User.required_fields
      (applyDefaults (User.default_values now token) supplied) = true := by
    rw [validateDoc, Bool.and_eq_true]
    constructor
    · rw [List.all_eq_true]
      intro kv hkv
      rw [applyDefaults, List.mem_append] at hkv
      rcases hkv with h | h
      · exact hok kv h
      · exact user_defaults_fieldOk now token kv (List.mem_of_mem_filter h)
    · rw [List.all_eq_true]
      intro f hf
      simp only [User.required_fields, List.mem_cons, List.not_mem_nil,
        or_false] at hf
      rcases hf with rfl | rfl | rfl | rfl
      · exact hdocSome _ (Or.inl (Option.isSome_iff_ne_none.mp husername))
      · exact hdocSome _ (Or.inr (by simp [User.default_values, lookupField]))
      · exact hdocSome _ (Or.inl (Option.isSome_iff_ne_none.mp hpw))
      · exact hdocSome _ (Or.inl (Option.isSome_iff_ne_none.mp hemail))
  refine ⟨applyDefaults (User.default_values now token) supplied,
    by simp [User.create, createRecord, hvalid], ?_, ?_, ?_, ?_, ?_⟩ <;>
    · intro hnone
      rw [lookupField_applyDefaults_of_supplied_none _ _ _ hnone]
      rfl

/-- C7 witness: a concrete field set supplying the three non-defaulted
required fields plus the optional `url`; creation succeeds and the five
unspecified defaulted fields take their declared defaults. -/
theorem user_creation_defaults_witness :
    ∃ doc, User.create 42 "tok"
        [("username", .vStr "alice"), ("pw_hash", .vStr "h"),
         ("email", .vStr "alice@example.com"),
         ("url", .vStr "http://example.com")] = some doc ∧
      (lookupField [("username", Value.vStr "alice"),
          ("pw_hash", Value.vStr "h"),
          ("email", Value.vStr "alice@example.com"),
          ("url", Value.vStr "http://example.com")] "status" = none →
        lookupField doc "status" = some (.vStr "needs_email_verification")) ∧
      (lookupField [("username", Value.vStr "alice"),
          ("pw_hash", Value.vStr "h"),
          ("email", Value.vStr "alice@example.com"),
          ("url", Value.vStr "http://example.com")] "email_verified" = none →
        lookupField doc "email_verified" = some (.vBool false)) ∧
      (lookupField [("username", Value.vStr "alice"),
          ("pw_hash", Value.vStr "h"),
          ("email", Value.vStr "alice@example.com"),
          ("url", Value.vStr "http://example.com")] "is_admin" = none →
        lookupField doc "is_admin" = some (.vBool false)) ∧
      (lookupField [("username", Value.vStr "alice"),
          ("pw_hash", Value.vStr "h"),
          ("email", Value.vStr "alice@example.com"),
          ("url", Value.vStr "http://example.com")] "created" = none →
        lookupField doc "created" = some (.vDatetime 42)) ∧
      (lookupField [("username", Value.vStr "alice"),
          ("pw_hash", Value.vStr "h"),
          ("email", Value.vStr "alice@example.com"),
          ("url", Value.vStr "http://example.com")] "verification_key" = none →
        lookupField doc "verification_key" = some (.vStr "tok")) :=
  user_creation_defaults 42 "tok"
    [("username", .vStr "alice"), ("pw_hash", .vStr "h"),
     ("email", .vStr "alice@example.com"),
     ("url", .vStr "http://example.com")]
    (by decide) (by decide) (by decide) (by decide)

theorem defaults_fieldOk (now : Nat) :
    ∀ kv ∈ MediaEntry.default_values now,
      fieldOk MediaEntry.fieldSchema kv = true := by
  intro kv hkv
  simp only [MediaEntry.default_values, List.mem_cons, List.mem_singleton,
    List.not_mem_nil, or_false] at hkv
  rcases hkv with h | h <;> subst h <;> rfl

/-- C6: creating a `MediaEntry` fails with the ValidationError-equivalent
iff a required field (`uploader`, `created`, `media_type`, `slug`) is
absent — neither supplied nor covered by a default provider — or a
supplied field is unknown to the schema or mistyped; with every required
field present and every supplied field well-typed, creation succeeds. -/
theorem mediaentry_creation_validation (now : Nat) (supplied : Document) :
    MediaEntry.create now supplied = none ↔
      (∃ f ∈ MediaEntry.required_fields,
        lookupField supplied f = none ∧
        lookupField (MediaEntry.default_values now) f = none) ∨
      (∃ kv ∈ supplied, fieldOk MediaEntry.fieldSchema kv = false) := by
  have hstep : MediaEntry.create now supplied = none ↔
      validateDoc MediaEntry.fieldSchema MediaEntry.required_fields
        (applyDefaults (MediaEntry.default_values now) supplied) = false := by
    unfold MediaEntry.create createRecord
    cases hv : validateDoc MediaEntry.fieldSchema MediaEntry.required_fields
        (applyDefaults (MediaEntry.default_values now) supplied) <;>
      simp [hv]
  rw [hstep, validateDoc, Bool.and_eq_false_iff]
  constructor
  · rintro (hall | hreq)
    · right
      rw [List.all_eq_false] at hall
      obtain ⟨kv, hkv, hbad⟩ := hall
      rw [applyDefaults, List.mem_append] at hkv
      rcases hkv with h | h
      · exact ⟨kv, h, by simpa using hbad⟩
      · exact absurd (defaults_fieldOk now kv (List.mem_of_mem_filter h))
          (by simpa using hbad)
    · left
      rw [List.all_eq_false] at hreq
      obtain ⟨f, hf, hbad⟩ := hreq
      have : lookupField (applyDefaults (MediaEntry.default_values now)
          supplied) f = none := by
        rcases hn : lookupField (applyDefaults
            (MediaEntry.default_values now) supplied) f with _ | v
        · rfl
        · exact absurd (by simp [hn]) hbad
      rw [lookupField_applyDefaults_eq_none] at this
      exact ⟨f, hf, this⟩
  · rintro (⟨f, hf, habs⟩ | ⟨kv, hkv, hbad⟩)
    · right
      rw [List.all_eq_false]
      refine ⟨f, hf, ?_⟩
      rw [← lookupField_applyDefaults_eq_none (MediaEntry.default_values now)
        supplied f] at habs
      simp [habs]
    · left
      rw [List.all_eq_false]
      exact ⟨kv, by rw [applyDefaults, List.mem_append]; exact Or.inl hkv,
        by simp [hbad]⟩
